import Mathlib

/-!
Verification of the routing core of `postgresRouting` (`src/main.py`).

The routing core is a SQL pipeline embedded in the Python function
`create_multi_stop_route`, driven over HTTP by `route_from_batch_geocoding`.
This file gives a shallow embedding of that pipeline:

* the per-edge cost expressions passed to `pgr_astar` (the `cost` and
  `reverse_cost` CASE expressions built over the `ways` columns);
* the stop validation / stable sort of `create_multi_stop_route`;
* the `snap` CTE's COALESCE fallback structure;
* the `pairs`, `route_parts` and `full_route` CTEs and the Python-level
  packaging of the query result.

SQL numeric values are modelled by `Rat` (the multipliers 0.6, 0.75, 0.85,
10000 and -1 are exact); SQL `NULL`-able text columns by `Option String`
with SQL three-valued comparison semantics (a comparison against `NULL` is
not satisfied in a `CASE WHEN` / `WHERE` clause).  External collaborators
(the PostGIS spatial predicates and the `pgr_astar` search itself) are
parameters of the embedding.
-/

/-- One row of the `ways` table, restricted to the columns the embedded SQL
reads: `gid`, `source`, `target`, `oneway`, `tag_id`, `priority`,
`maxspeed_forward`, `cost_time`, `reverse_cost_time`.  `oneway` is a
`NULL`-able text column. -/
structure Edge where
  gid : Int
  source : Int
  target : Int
  oneway : Option String
  tag_id : Int
  priority : Rat
  maxspeed_forward : Rat
  cost_time : Rat
  reverse_cost_time : Rat
  deriving DecidableEq, Repr

/-- Leading space characters removed (helper for SQL `TRIM`). -/
def dropLeadingSpaces : List Char → List Char
  | [] => []
  | c :: rest => if c = ' ' then dropLeadingSpaces rest else c :: rest

/-- SQL `TRIM(s)`: leading and trailing space characters removed. -/
def sqlTrim (l : List Char) : List Char :=
  (dropLeadingSpaces ((dropLeadingSpaces l).reverse)).reverse

/-- SQL `UPPER(s)`: every character upper-cased. -/
def sqlUpper (l : List Char) : List Char := l.map Char.toUpper

/-- SQL `UPPER(TRIM(col)) = 'v'` on a `NULL`-able text column: `NULL`
compares as not-satisfied. -/
def sqlEqUpperTrim (col : Option String) (v : String) : Bool :=
  match col with
  | Option.none => false
  | Option.some s => sqlUpper (sqlTrim s.data) == v.data

/-- SQL `UPPER(TRIM(col)) != 'v'` on a `NULL`-able text column: `NULL`
compares as not-satisfied (so this is NOT the negation of `sqlEqUpperTrim`
when the column is `NULL`). -/
def sqlNeUpperTrim (col : Option String) (v : String) : Bool :=
  match col with
  | Option.none => false
  | Option.some s => !(sqlUpper (sqlTrim s.data) == v.data)

/-- SQL `tag_id IN (101, 102, 103, 104, 106)` from the cost expression. -/
def isHighwayTag (t : Int) : Bool :=
  t == 101 || t == 102 || t == 103 || t == 104 || t == 106

/-- The `cost` column of the inner query handed to `pgr_astar`
(src/main.py lines 200-215): forward (source→target) traversal cost. -/
def forwardCost (e : Edge) : Rat :=
  if sqlEqUpperTrim e.oneway "REVERSED" then e.cost_time * 10000
  else if isHighwayTag e.tag_id ∨ (1 ≤ e.priority ∧ 80 < e.maxspeed_forward) then
    e.cost_time * (6/10)
  else if 80 < e.maxspeed_forward then e.cost_time * (75/100)
  else if 1 ≤ e.priority then e.cost_time * (85/100)
  else e.cost_time

/-- The `reverse_cost` column of the inner query handed to `pgr_astar`
(src/main.py lines 216-231): reverse (target→source) traversal cost. -/
def reverseCost (e : Edge) : Rat :=
  if sqlEqUpperTrim e.oneway "YES" then -1
  else if sqlEqUpperTrim e.oneway "REVERSED" then -1
  else if sqlNeUpperTrim e.oneway "YES" ∧
      (isHighwayTag e.tag_id ∨ (1 ≤ e.priority ∧ 80 < e.maxspeed_forward)) then
    e.reverse_cost_time * (6/10)
  else if sqlNeUpperTrim e.oneway "YES" ∧ 80 < e.maxspeed_forward then
    e.reverse_cost_time * (75/100)
  else if sqlNeUpperTrim e.oneway "YES" ∧ 1 ≤ e.priority then
    e.reverse_cost_time * (85/100)
  else e.reverse_cost_time

/-- pgRouting convention used by the query: an edge direction with a
negative cost (the query uses `-1`) cannot be traversed by the search. -/
def Unreachable (c : Rat) : Prop := c < 0

/-- The discount tier structure of the cost CASE expression, i.e. the
multiplier applied to the stored travel time in the branches that do not
involve the one-way guards. -/
def discountTier (e : Edge) : Rat :=
  if isHighwayTag e.tag_id ∨ (1 ≤ e.priority ∧ 80 < e.maxspeed_forward) then 6/10
  else if 80 < e.maxspeed_forward then 75/100
  else if 1 ≤ e.priority then 85/100
  else 1

/-- One entry of the `geocode_results` request list, restricted to the keys
`create_multi_stop_route` reads.  Keys read with `dict.get` (and hence
possibly absent) are `Option`s; `lat`/`lng` are read with `stop['lat']` /
`stop['lng']` when building the query, so they are required. -/
structure Stop where
  stop_number : Option Int
  lat : Rat
  lng : Rat
  address : Option String
  formatted_address : Option String
  status : Option String
  deriving DecidableEq, Repr

/-- The sort key of `successful_stops.sort(key=lambda x: x.get("stop_number", 0))`:
a missing `stop_number` defaults to 0. -/
def sortKey (s : Stop) : Int := s.stop_number.getD 0

/-- Boolean comparison on sort keys, for the stable sort. -/
def stopLE (a b : Stop) : Bool := decide (sortKey a ≤ sortKey b)

/-- Python `list.sort(key=...)`: a stable sort by `sortKey` ascending
(ties keep input order). -/
def sortStops (l : List Stop) : List Stop := l.mergeSort stopLE

/-- `[stop for stop in geocode_results if stop.get("status") == "success"]`. -/
def successfulStops (geocode_results : List Stop) : List Stop :=
  geocode_results.filter (fun s => s.status == Option.some "success")

/-- One entry of the `stops` list of the success response (`stop_info` in
src/main.py lines 267-273): absent keys default to 0 / empty string. -/
structure StopSummary where
  stop_number : Int
  address : String
  lat : Rat
  lng : Rat
  formatted_address : String
  deriving DecidableEq, Repr

/-- Building one `stop_info` record of the response. -/
def stopSummary (s : Stop) : StopSummary :=
  { stop_number := s.stop_number.getD 0,
    address := s.address.getD "",
    lat := s.lat,
    lng := s.lng,
    formatted_address := s.formatted_address.getD "" }

/-- The scalar fallback subquery of the `snap` CTE: the single vertex of
`ways_vertices_pgr` nearest to the stop (`ORDER BY v.the_geom <-> s.geom
LIMIT 1`).  The vertex table is abstracted as the list of vertex ids in
ascending distance order; the subquery returns `NULL` exactly when the
table is empty. -/
def nearestVertexFallback (verticesByDistance : List Int) : Option Int :=
  verticesByDistance.head?

/-- The `vertex_id` column of the `snap` CTE:
`COALESCE(direction-aware candidate subquery, nearest-vertex fallback)`.
The direction-aware candidate subquery (src/main.py lines 76-162) is built
from PostGIS spatial predicates (distances, azimuths, `ST_DWithin`), which
are external to the routing core; its scalar result (`NULL` when no
eligible candidate road exists within the 150-unit radius) is taken as a
parameter. -/
def snapVertexId (directionAware : Option Int)
    (verticesByDistance : List Int) : Option Int :=
  match directionAware with
  | Option.some v => Option.some v
  | Option.none => nearestVertexFallback verticesByDistance

/-- The `pairs` CTE, with stop ids threaded from `i`: each consecutive
(id, id+1) pair of snapped stops is kept only when both `vertex_id`s are
non-`NULL` and distinct (`a.vertex_id != b.vertex_id`). -/
def mkPairsAux (i : Nat) : List (Option Int) → List (Nat × Int × Int)
  | Option.some va :: Option.some vb :: rest =>
      (if va ≠ vb then [(i, va, vb)] else []) ++
        mkPairsAux (i + 1) (Option.some vb :: rest)
  | _ :: b :: rest => mkPairsAux (i + 1) (b :: rest)
  | _ => []

/-- The `pairs` CTE.  Stop ids start at 1, so the produced triple is
`(from_id, source vertex, target vertex)`. -/
def mkPairs (snap : List (Option Int)) : List (Nat × Int × Int) :=
  mkPairsAux 1 snap

/-- The rows `pgr_astar(...)` returns for one (source, target) pair:
the `edge` column of each row in `seq` order (the terminating row carries
edge `-1`; zero rows when no path exists), and the accumulated cost of the
found path.  The search itself is the external graph engine; it is a
parameter of the pipeline. -/
structure SolveResult where
  edges : List Int
  agg_cost : Rat
  deriving DecidableEq, Repr

/-- `LEFT JOIN ways w ON r.edge = w.gid`. -/
def lookupWay (ways : List Edge) (g : Int) : Option Edge :=
  ways.find? (fun w => w.gid == g)

/-- The `route_parts` CTE: for every pair, the solver's rows with
`r.edge > 0`, each left-joined against `ways`; a row keeps its pair's
`from_id`. -/
def route_parts (ways : List Edge) (solver : Int → Int → SolveResult)
    (prs : List (Nat × Int × Int)) : List (Nat × Option Edge) :=
  prs.flatMap fun p =>
    ((solver p.2.1 p.2.2).edges.filter (fun g => 0 < g)).map
      (fun g => (p.1, lookupWay ways g))

/-- `SUM(cost_time)` of the `full_route` CTE: SQL `SUM` skips `NULL`
values (rows whose `LEFT JOIN` found no way) and is itself `NULL` when
there is no non-`NULL` value to add. -/
def total_time_min (rps : List (Nat × Option Edge)) : Option Rat :=
  let cs := rps.filterMap (fun r => r.2.map Edge.cost_time)
  if cs = [] then Option.none else Option.some cs.sum

/-- `COUNT(DISTINCT from_id)` of the `full_route` CTE. -/
def segment_count (rps : List (Nat × Option Edge)) : Nat :=
  (rps.map Prod.fst).toFinset.card

/-- Whether `result[0]` (the GeoJSON of the merged geometry) is non-`NULL`:
`ST_Collect` ignores `NULL` geometries and yields `NULL` when no row
contributes one, so the route is found exactly when some `route_parts` row
joined an actual way. -/
def routeFound (rps : List (Nat × Option Edge)) : Bool :=
  rps.any (fun r => r.2.isSome)

/-- The dictionary `create_multi_stop_route` returns, as a closed sum:
the two validation-error dictionaries (with their `successful_stops`
count), the `"No route found"` dictionary, and the success dictionary. -/
inductive RouteResult where
  | validationError (error : String) (successful_stops : Nat)
  | noRoute
  | success (total_stops : Nat) (stops : List StopSummary)
      (total_time_min : Option Rat) (segment_count : Option Nat)
  deriving DecidableEq, Repr

/-- `create_multi_stop_route` (src/main.py lines 36-294): filter to
successful stops, stable-sort by `stop_number`, reject < 2 or > 100 stops,
then run the SQL pipeline (snapping abstracted as `snapf`, the shortest
path search as `solver`) and package the result. -/
def create_multi_stop_route (geocode_results : List Stop)
    (snapf : List Stop → List (Option Int))
    (ways : List Edge) (solver : Int → Int → SolveResult) : RouteResult :=
  let successful_stops := sortStops (successfulStops geocode_results)
  if successful_stops.length < 2 then
    RouteResult.validationError "At least 2 successful geocodes required for routing"
      successful_stops.length
  else if 100 < successful_stops.length then
    RouteResult.validationError "Maximum 100 stops allowed" successful_stops.length
  else
    let snap := snapf successful_stops
    let rps := route_parts ways solver (mkPairs snap)
    if routeFound rps then
      RouteResult.success successful_stops.length (successful_stops.map stopSummary)
        (total_time_min rps) (Option.some (segment_count rps))
    else RouteResult.noRoute

/-- The HTTP outcome of `route_from_batch_geocoding`: HTTP 400 with a
detail message, HTTP 500, or the 200 response payload. -/
inductive BatchResult where
  | http400 (detail : String)
  | http500 (detail : String)
  | ok (total_stops : Nat) (stops : List StopSummary)
      (total_time_min : Option Rat) (segment_count : Option Nat)
  deriving DecidableEq, Repr

/-- `route_from_batch_geocoding` (src/main.py lines 370-440): bounds checks
on the raw request list, then `create_multi_stop_route`; a non-success
dictionary becomes an HTTP 400 carrying its error message. -/
def route_from_batch_geocoding (geocode_results : List Stop)
    (snapf : List Stop → List (Option Int))
    (ways : List Edge) (solver : Int → Int → SolveResult) : BatchResult :=
  if geocode_results.length < 2 then
    BatchResult.http400 "At least 2 stops required for routing"
  else if 100 < geocode_results.length then
    BatchResult.http400 "Maximum 100 stops allowed"
  else
    match create_multi_stop_route geocode_results snapf ways solver with
    | RouteResult.validationError e _ => BatchResult.http400 e
    | RouteResult.noRoute => BatchResult.http400 "No route found"
    | RouteResult.success a b c d => BatchResult.ok a b c d

/-- Sample `ways` row: marked `REVERSED`, no other preference attribute. -/
def eRevA : Edge :=
  { gid := 11, source := 1, target := 2, oneway := Option.some "REVERSED",
    tag_id := 0, priority := 0, maxspeed_forward := 50,
    cost_time := 3, reverse_cost_time := 3 }

/-- Sample `ways` row: marked `REVERSED`, highway-class attributes. -/
def eRevB : Edge :=
  { gid := 12, source := 2, target := 3, oneway := Option.some "REVERSED",
    tag_id := 101, priority := 1, maxspeed_forward := 100,
    cost_time := 2, reverse_cost_time := 2 }

/-- Sample `ways` row: marked one-way `yes` with surrounding spaces
(exercises the `UPPER(TRIM(...))` normalisation). -/
def eYes : Edge :=
  { gid := 13, source := 3, target := 4, oneway := Option.some " yes ",
    tag_id := 0, priority := 0, maxspeed_forward := 50,
    cost_time := 5, reverse_cost_time := 5 }

/-- Sample `ways` row: bidirectional (`NO`), not highway-class, but with
`priority >= 1` and `maxspeed_forward > 80`. -/
def ePrioFast : Edge :=
  { gid := 14, source := 4, target := 5, oneway := Option.some "NO",
    tag_id := 42, priority := 1, maxspeed_forward := 100,
    cost_time := 1, reverse_cost_time := 1 }

/-- The raw per-segment travel time the `full_route` CTE adds up for one
pair: the `cost_time` column of every joined way of that pair's path (NOT
the accumulated search cost `pgr_astar` reports). -/
def segRawTime (ways : List Edge) (solver : Int → Int → SolveResult)
    (p : Nat × Int × Int) : Rat :=
  (((solver p.2.1 p.2.2).edges.filter (fun g => 0 < g)).filterMap
    (fun g => (lookupWay ways g).map Edge.cost_time)).sum

/-- Sample stop without a `stop_number` key. -/
def sNoNum : Stop :=
  { stop_number := Option.none, lat := 1, lng := 2,
    address := Option.some "a", formatted_address := Option.none,
    status := Option.some "success" }

/-- Sample stop with `stop_number` 5. -/
def sPos : Stop :=
  { stop_number := Option.some 5, lat := 3, lng := 4,
    address := Option.some "b", formatted_address := Option.none,
    status := Option.some "success" }

/-- Sample stop tied on `stop_number` 1 (first of the tie). -/
def sTieA : Stop :=
  { stop_number := Option.some 1, lat := 1, lng := 1,
    address := Option.some "first input", formatted_address := Option.none,
    status := Option.some "success" }

/-- Sample stop tied on `stop_number` 1 (second of the tie). -/
def sTieB : Stop :=
  { stop_number := Option.some 1, lat := 1, lng := 1,
    address := Option.some "second input", formatted_address := Option.none,
    status := Option.some "success" }

/-- Sample successful stop number 1. -/
def stA : Stop :=
  { stop_number := Option.some 1, lat := 1, lng := 1,
    address := Option.some "A", formatted_address := Option.none,
    status := Option.some "success" }

/-- Sample successful stop number 2. -/
def stB : Stop :=
  { stop_number := Option.some 2, lat := 2, lng := 2,
    address := Option.some "B", formatted_address := Option.none,
    status := Option.some "success" }

/-- Sample successful stop number 3. -/
def stC : Stop :=
  { stop_number := Option.some 3, lat := 3, lng := 3,
    address := Option.some "C", formatted_address := Option.none,
    status := Option.some "success" }

/-- Sample stop whose geocoding failed. -/
def sFailedStop : Stop :=
  { stop_number := Option.some 1, lat := 0, lng := 0,
    address := Option.none, formatted_address := Option.none,
    status := Option.some "failed" }

/-- Snapping outcome where the first two stops land on the same vertex. -/
def snapDegenerate : List Stop → List (Option Int) :=
  fun _ => [Option.some 1, Option.some 1, Option.some 2]

/-- Sample way from vertex 1 to vertex 2, bidirectional, no discounts. -/
def eAB : Edge :=
  { gid := 7, source := 1, target := 2, oneway := Option.none,
    tag_id := 0, priority := 0, maxspeed_forward := 50,
    cost_time := 4, reverse_cost_time := 4 }

/-- One-edge `ways` table containing `eAB`. -/
def waysAB : List Edge := [eAB]

/-- Shortest-path oracle that knows the single path 1 → 2 over edge 7. -/
def solverAB : Int → Int → SolveResult :=
  fun s t => if s = 1 ∧ t = 2 then ⟨[7, -1], 4⟩ else ⟨[], 0⟩

/-- Sample highway-class way from vertex 1 to vertex 2 (`tag_id` 101). -/
def eHwy : Edge :=
  { gid := 9, source := 1, target := 2, oneway := Option.none,
    tag_id := 101, priority := 1, maxspeed_forward := 100,
    cost_time := 1, reverse_cost_time := 1 }

/-- One-edge `ways` table containing `eHwy`. -/
def waysHwy : List Edge := [eHwy]

/-- Shortest-path oracle for `waysHwy`: the path 1 → 2 uses edge 9 forward,
and its accumulated cost is the search cost of that edge, i.e.
`forwardCost eHwy = 1 * 0.6 = 3/5`. -/
def solverHwy : Int → Int → SolveResult :=
  fun s t => if s = 1 ∧ t = 2 then ⟨[9, -1], 3/5⟩ else ⟨[], 0⟩

/-- Degenerate snapping function (no stops snapped). -/
def emptySnap : List Stop → List (Option Int) := fun _ => []

/-- Empty `ways` table. -/
def noWays : List Edge := []

/-- Shortest-path oracle over the empty graph: never finds a path. -/
def noSolver : Int → Int → SolveResult := fun _ _ => ⟨[], 0⟩

/-- C1 (counterexample): a `REVERSED` edge traversed in the forward
(source→target) direction does NOT get a `-1` (Unreachable) cost: the query
assigns `cost_time * 10000`, which is non-negative, so the search may
traverse it.  This refutes the claim that a reverse-only one-way edge
traversed forward yields `Unreachable`. -/
theorem reversed_forward_not_unreachable_cex :
    forwardCost eRevA = 30000 ∧ ¬ Unreachable (forwardCost eRevA) := by
  have h : forwardCost eRevA = 30000 := by
    unfold forwardCost
    rw [if_pos (by decide)]
    norm_num [eRevA]
  refine ⟨h, ?_⟩
  rw [h]
  unfold Unreachable
  norm_num

/-- C1 (amended): the two cost expressions return `-1` (Unreachable) exactly
for reverse traversal: a `YES` one-way edge traversed in reverse is
Unreachable, and a `REVERSED` one-way edge traversed in reverse is also
Unreachable, for all attribute combinations; a `REVERSED` edge traversed
forward is instead priced at `cost_time * 10000`. -/
theorem oneway_unreachable_cases (e : Edge) :
    (sqlEqUpperTrim e.oneway "YES" = true → Unreachable (reverseCost e)) ∧
    (sqlEqUpperTrim e.oneway "REVERSED" = true →
      forwardCost e = e.cost_time * 10000 ∧ Unreachable (reverseCost e)) := by
  unfold Unreachable reverseCost forwardCost
  constructor
  · intro h
    simp [h]
  · intro h
    rw [if_pos h]
    refine ⟨rfl, ?_⟩
    by_cases hy : sqlEqUpperTrim e.oneway "YES" = true
    · simp [hy]
    · simp [hy, h]

/-- C1 (witness): `oneway_unreachable_cases` applied to the concrete edges
`eYes` (one-way marked `" yes "`) and `eRevA` (marked `REVERSED`). -/
theorem oneway_unreachable_cases_witness :
    Unreachable (reverseCost eYes) ∧
    (forwardCost eRevA = eRevA.cost_time * 10000 ∧ Unreachable (reverseCost eRevA)) :=
  ⟨(oneway_unreachable_cases eYes).1 (by decide),
   (oneway_unreachable_cases eRevA).2 (by decide)⟩

/-- C2 (counterexample): a `REVERSED` edge traversed in its reverse
(target→source) direction gets cost `-1`, i.e. it IS Unreachable in that
direction.  This refutes the claim that such an edge is merely penalised
(×10000) and never Unreachable when traversed in reverse. -/
theorem reversed_reverse_unreachable_cex :
    reverseCost eRevB = -1 ∧ Unreachable (reverseCost eRevB) := by
  have h : reverseCost eRevB = -1 := by
    unfold reverseCost
    rw [if_neg (by decide), if_pos (by decide)]
  exact ⟨h, by rw [Unreachable, h]; norm_num⟩

/-- C2 (amended): for every edge marked `REVERSED`, the forward
(source→target) traversal is the one that is allowed but penalised — its
cost is `cost_time * 10000`, never Unreachable (given a non-negative stored
travel time) — while the reverse (target→source) traversal is Unreachable. -/
theorem reversed_cost_profile (e : Edge)
    (h : sqlEqUpperTrim e.oneway "REVERSED" = true) (hc : 0 ≤ e.cost_time) :
    forwardCost e = e.cost_time * 10000 ∧
    ¬ Unreachable (forwardCost e) ∧
    Unreachable (reverseCost e) := by
  have hf : forwardCost e = e.cost_time * 10000 := by
    unfold forwardCost; rw [if_pos h]
  refine ⟨hf, ?_, ?_⟩
  · rw [hf]
    unfold Unreachable
    push_neg
    positivity
  · unfold Unreachable reverseCost
    by_cases hy : sqlEqUpperTrim e.oneway "YES" = true
    · simp [hy]
    · simp [hy, h]

/-- C2 (witness): `reversed_cost_profile` applied to the concrete
`REVERSED` edge `eRevB`. -/
theorem reversed_cost_profile_witness :
    forwardCost eRevB = eRevB.cost_time * 10000 ∧
    ¬ Unreachable (forwardCost eRevB) ∧
    Unreachable (reverseCost eRevB) :=
  reversed_cost_profile eRevB (by decide) (by norm_num [eRevB])

/-- C3 (counterexample): a non-highway-class edge (`tag_id = 42`) with
`priority >= 1.0` and `maxspeed_forward > 80` falls into the FIRST cost
branch — it gets the ×0.6 multiplier, not the ×0.75 one the claim
predicts — because the first branch tests
`tag_id IN (...) OR (priority >= 1.0 AND maxspeed_forward > 80)`. -/
theorem priority_fast_road_tier_cex :
    forwardCost ePrioFast = ePrioFast.cost_time * (6/10) ∧
    forwardCost ePrioFast ≠ ePrioFast.cost_time * (75/100) := by
  have h : forwardCost ePrioFast = ePrioFast.cost_time * (6/10) := by
    unfold forwardCost
    rw [if_neg (by decide), if_pos (by norm_num [ePrioFast, isHighwayTag])]
  refine ⟨h, ?_⟩
  rw [h]
  norm_num [ePrioFast]

/-- C3 (amended): for every edge not marked `REVERSED`, the forward cost is
the stored forward travel time times exactly one tier, with precedence:
(`tag_id IN (101,102,103,104,106)` OR (`priority >= 1.0` AND
`maxspeed_forward > 80`)) → ×0.6; otherwise `maxspeed_forward > 80` →
×0.75; otherwise `priority >= 1.0` → ×0.85; otherwise ×1.0.  The reverse
cost of an edge additionally not marked `YES` is the stored reverse travel
time times the same tier when the `oneway` column is non-NULL, and times
1 (no discount) when `oneway` is SQL `NULL`. -/
theorem cost_discount_tiers (e : Edge)
    (hrev : sqlEqUpperTrim e.oneway "REVERSED" = false) :
    forwardCost e = e.cost_time * discountTier e ∧
    (sqlEqUpperTrim e.oneway "YES" = false →
      reverseCost e = e.reverse_cost_time *
        (if e.oneway = Option.none then 1 else discountTier e)) := by
  constructor
  · unfold forwardCost discountTier
    rw [if_neg (by simp [hrev])]
    split_ifs <;> ring
  · intro hyes
    unfold reverseCost discountTier
    rw [if_neg (by simp [hyes]), if_neg (by simp [hrev])]
    rcases hone : e.oneway with _ | s
    · simp [hone, sqlNeUpperTrim]
    · have hne : sqlNeUpperTrim e.oneway "YES" = true := by
        rw [hone]; rw [hone] at hyes
        simp only [sqlEqUpperTrim] at hyes
        simp [sqlNeUpperTrim, hyes]
      simp only [hone] at hne ⊢
      simp only [hne, true_and, reduceCtorEq, if_false]
      split_ifs <;> ring

/-- C3 (witness): `cost_discount_tiers` applied to the concrete edge
`ePrioFast` (bidirectional `NO`, `priority = 1`, `maxspeed_forward = 100`). -/
theorem cost_discount_tiers_witness :
    forwardCost ePrioFast = ePrioFast.cost_time * discountTier ePrioFast ∧
    reverseCost ePrioFast = ePrioFast.reverse_cost_time *
      (if ePrioFast.oneway = Option.none then 1 else discountTier ePrioFast) := by
  have h := cost_discount_tiers ePrioFast (by decide)
  exact ⟨h.1, h.2 (by decide)⟩

theorem stopLE_trans : ∀ (a b c : Stop),
    stopLE a b = true → stopLE b c = true → stopLE a c = true := by
  intro a b c h1 h2
  simp only [stopLE, decide_eq_true_eq] at h1 h2 ⊢
  exact le_trans h1 h2

theorem stopLE_total : ∀ (a b : Stop), (stopLE a b || stopLE b a) = true := by
  intro a b
  simp only [stopLE, Bool.or_eq_true, decide_eq_true_eq]
  exact le_total _ _

theorem sortStops_perm (l : List Stop) : (sortStops l).Perm l :=
  List.mergeSort_perm l stopLE

theorem sortStops_length (l : List Stop) : (sortStops l).length = l.length :=
  (sortStops_perm l).length_eq

theorem sortStops_sorted (l : List Stop) :
    (sortStops l).Sorted (fun a b => sortKey a ≤ sortKey b) := by
  have h := List.sorted_mergeSort stopLE_trans stopLE_total l
  exact h.imp (by intro a b hab; simpa [stopLE, decide_eq_true_eq] using hab)

theorem mem_mkPairsAux (l : List (Option Int)) : ∀ (i j : Nat) (s t : Int),
    (j, s, t) ∈ mkPairsAux i l ↔
      ∃ k, j = i + k ∧ l[k]? = Option.some (Option.some s) ∧
        l[k+1]? = Option.some (Option.some t) ∧ s ≠ t := by
  induction l with
  | nil =>
    intro i j s t
    simp [mkPairsAux]
  | cons a rest ih =>
    intro i j s t
    cases rest with
    | nil =>
      rcases a with _ | va
      · simp only [mkPairsAux, List.not_mem_nil, false_iff, not_exists]
        rintro k ⟨hk, h1, h2, hst⟩
        rw [List.getElem?_cons_succ, List.getElem?_nil] at h2
        exact Option.noConfusion h2
      · simp only [mkPairsAux, List.not_mem_nil, false_iff, not_exists]
        rintro k ⟨hk, h1, h2, hst⟩
        rw [List.getElem?_cons_succ, List.getElem?_nil] at h2
        exact Option.noConfusion h2
    | cons b rest2 =>
      have ihb := ih (i + 1) j s t
      rcases a with _ | va <;> rcases b with _ | vb
      · rw [show mkPairsAux i (Option.none :: Option.none :: rest2) =
            mkPairsAux (i + 1) (Option.none :: rest2) from rfl, ihb]
        constructor
        · rintro ⟨k, hk, h1, h2, hst⟩
          exact ⟨k + 1, by omega, by simpa using h1, by simpa using h2, hst⟩
        · rintro ⟨k, hk, h1, h2, hst⟩
          cases k with
          | zero =>
            rw [List.getElem?_cons_zero] at h1
            exact absurd h1 (by simp)
          | succ k' =>
            exact ⟨k', by omega, by simpa using h1, by simpa using h2, hst⟩
      · rw [show mkPairsAux i (Option.none :: Option.some vb :: rest2) =
            mkPairsAux (i + 1) (Option.some vb :: rest2) from rfl, ihb]
        constructor
        · rintro ⟨k, hk, h1, h2, hst⟩
          exact ⟨k + 1, by omega, by simpa using h1, by simpa using h2, hst⟩
        · rintro ⟨k, hk, h1, h2, hst⟩
          cases k with
          | zero =>
            rw [List.getElem?_cons_zero] at h1
            exact absurd h1 (by simp)
          | succ k' =>
            exact ⟨k', by omega, by simpa using h1, by simpa using h2, hst⟩
      · rw [show mkPairsAux i (Option.some va :: Option.none :: rest2) =
            mkPairsAux (i + 1) (Option.none :: rest2) from rfl, ihb]
        constructor
        · rintro ⟨k, hk, h1, h2, hst⟩
          exact ⟨k + 1, by omega, by simpa using h1, by simpa using h2, hst⟩
        · rintro ⟨k, hk, h1, h2, hst⟩
          cases k with
          | zero =>
            rw [List.getElem?_cons_succ, List.getElem?_cons_zero] at h2
            exact absurd h2 (by simp)
          | succ k' =>
            exact ⟨k', by omega, by simpa using h1, by simpa using h2, hst⟩
      · rw [show mkPairsAux i (Option.some va :: Option.some vb :: rest2) =
            (if va ≠ vb then [(i, va, vb)] else []) ++
              mkPairsAux (i + 1) (Option.some vb :: rest2) from rfl]
        rw [List.mem_append, ihb]
        constructor
        · rintro (hl | ⟨k, hk, h1, h2, hst⟩)
          · by_cases hvv : va ≠ vb
            · rw [if_pos hvv, List.mem_singleton] at hl
              have hj : j = i := congrArg Prod.fst hl
              have hs2 : s = va := congrArg (fun x => x.2.1) hl
              have ht2 : t = vb := congrArg (fun x => x.2.2) hl
              subst hj; subst hs2; subst ht2
              exact ⟨0, by omega, by simp, by simp, hvv⟩
            · rw [if_neg hvv] at hl
              exact absurd hl (List.not_mem_nil _)
          · exact ⟨k + 1, by omega, by simpa using h1, by simpa using h2, hst⟩
        · rintro ⟨k, hk, h1, h2, hst⟩
          cases k with
          | zero =>
            left
            rw [List.getElem?_cons_zero] at h1
            rw [List.getElem?_cons_succ, List.getElem?_cons_zero] at h2
            have h1' : va = s := by
              injection h1 with h; injection h with h'
            have h2' : vb = t := by
              injection h2 with h; injection h with h'
            subst h1'; subst h2'
            rw [if_pos hst]
            have hj : j = i := by omega
            subst hj
            exact List.mem_singleton.mpr rfl
          | succ k' =>
            right
            exact ⟨k', by omega, by simpa using h1, by simpa using h2, hst⟩

theorem mkPairsAux_map_fst (l : List (Option Int)) : ∀ (i : Nat),
    (∀ x ∈ l, x.isSome) → l.Chain' (· ≠ ·) →
    (mkPairsAux i l).map Prod.fst = List.range' i (l.length - 1) := by
  induction l with
  | nil => intro i _ _; simp [mkPairsAux]
  | cons a rest ih =>
    intro i hsome hchain
    cases rest with
    | nil =>
      rcases a with _ | va <;> simp [mkPairsAux]
    | cons b rest2 =>
      obtain ⟨va, hva⟩ := Option.isSome_iff_exists.mp (hsome a (by simp))
      obtain ⟨vb, hvb⟩ := Option.isSome_iff_exists.mp (hsome b (by simp))
      subst hva; subst hvb
      have hvv : va ≠ vb := by
        intro h
        exact (List.chain'_cons.mp hchain).1 (by rw [h])
      have htail : (mkPairsAux (i + 1) (Option.some vb :: rest2)).map Prod.fst =
          List.range' (i + 1) rest2.length := by
        have := ih (i + 1) (fun x hx => hsome x (by simp [hx]))
          (List.chain'_cons.mp hchain).2
        simpa using this
      rw [show mkPairsAux i (Option.some va :: Option.some vb :: rest2) =
        (if va ≠ vb then [(i, va, vb)] else []) ++
          mkPairsAux (i + 1) (Option.some vb :: rest2) from rfl]
      rw [if_pos hvv, List.map_append, htail]
      simp [List.range']

theorem toFinset_map_const {α β : Type} [DecidableEq β] :
    ∀ (l : List α) (c : β), l ≠ [] → (l.map (fun _ => c)).toFinset = {c}
  | [], _, h => absurd rfl h
  | a :: l, c, _ => by
      rw [List.map_cons, List.toFinset_cons]
      rcases eq_or_ne l [] with rfl | hl
      · simp
      · rw [toFinset_map_const l c hl]
        simp

theorem route_parts_fst_toFinset (ways : List Edge)
    (solver : Int → Int → SolveResult) : ∀ (prs : List (Nat × Int × Int)),
    (∀ p ∈ prs, ((solver p.2.1 p.2.2).edges.filter (fun g => 0 < g)) ≠ []) →
    ((route_parts ways solver prs).map Prod.fst).toFinset =
      (prs.map Prod.fst).toFinset := by
  intro prs
  induction prs with
  | nil => intro _; simp [route_parts]
  | cons p rest ih =>
    intro h
    have hne := h p (List.mem_cons_self _ _)
    have hr := ih (fun q hq => h q (List.mem_cons_of_mem _ hq))
    simp only [route_parts, List.flatMap_cons] at hr ⊢
    rw [List.map_append, List.toFinset_append]
    have hblock : ((((solver p.2.1 p.2.2).edges.filter (fun g => 0 < g)).map
        (fun g => (p.1, lookupWay ways g))).map Prod.fst).toFinset = {p.1} := by
      rw [List.map_map]
      exact toFinset_map_const _ _ hne
    rw [hblock, hr, List.map_cons, List.toFinset_cons, Finset.insert_eq]

theorem route_parts_costs (ways : List Edge) (solver : Int → Int → SolveResult) :
    ∀ (prs : List (Nat × Int × Int)),
    (route_parts ways solver prs).filterMap (fun r => r.2.map Edge.cost_time) =
      prs.flatMap (fun p =>
        ((solver p.2.1 p.2.2).edges.filter (fun g => 0 < g)).filterMap
          (fun g => (lookupWay ways g).map Edge.cost_time)) := by
  intro prs
  induction prs with
  | nil => simp [route_parts]
  | cons p rest ih =>
    simp only [route_parts, List.flatMap_cons] at ih ⊢
    rw [List.filterMap_append, ih, List.filterMap_map]
    rfl

theorem sum_flatMap_rat {α : Type} (f : α → List Rat) :
    ∀ (l : List α), (l.flatMap f).sum = (l.map (fun a => (f a).sum)).sum
  | [] => by simp
  | a :: l => by
      rw [List.flatMap_cons, List.sum_append, List.map_cons, List.sum_cons,
        sum_flatMap_rat f l]

/-- C4 (counterexample): three stops whose first two snap to the same
vertex.  The degenerate consecutive pair is dropped by the `pairs` CTE
filter, the remaining pair still routes, and the whole request is reported
as a SUCCESS (with one segment) — the request does not fail.  This refutes
the claim that a degenerate pair makes the whole routing request fail. -/
theorem degenerate_pair_dropped_cex :
    create_multi_stop_route [stA, stB, stC] snapDegenerate waysAB solverAB =
      RouteResult.success 3 [stopSummary stA, stopSummary stB, stopSummary stC]
        (Option.some 4) (Option.some 1) := by
  have hfilter : successfulStops [stA, stB, stC] = [stA, stB, stC] := by
    simp [successfulStops, stA, stB, stC]
  have hsort : sortStops [stA, stB, stC] = [stA, stB, stC] := by
    simp [sortStops, List.mergeSort, List.merge, stopLE, sortKey, stA, stB, stC]
  have hpairs : mkPairs [Option.some 1, Option.some 1, Option.some 2] = [(2, 1, 2)] := by
    decide
  have hrp : route_parts waysAB solverAB [(2, 1, 2)] = [(2, Option.some eAB)] := by
    simp [route_parts, solverAB, waysAB, lookupWay, eAB]
  unfold create_multi_stop_route
  rw [hfilter, hsort]
  rw [if_neg (by norm_num), if_neg (by norm_num)]
  rw [show snapDegenerate [stA, stB, stC] =
    [Option.some 1, Option.some 1, Option.some 2] from rfl]
  simp only [hpairs, hrp]
  rw [if_pos (by simp [routeFound])]
  have htime : total_time_min [(2, Option.some eAB)] = Option.some 4 := by
    simp [total_time_min, eAB]
  have hcount : segment_count [(2, Option.some eAB)] = 1 := by
    simp [segment_count]
  rw [htime, hcount]
  rfl

/-- C4 (amended): a consecutive snapped pair resolving to the same vertex
is silently excluded by the `pairs` CTE rather than failing the request:
every produced pair has distinct endpoints, and a position where the two
consecutive snapped vertex ids coincide produces no pair at all (its
`from_id` is absent); the remaining pairs are still routed, and the
request can succeed without it (see the counterexample run). -/
theorem degenerate_pair_skipped (snap : List (Option Int)) :
    (∀ p ∈ mkPairs snap, p.2.1 ≠ p.2.2) ∧
    (∀ (i : Nat) (s t : Int), snap[i]? = snap[i+1]? →
      (i + 1, s, t) ∉ mkPairs snap) := by
  constructor
  · rintro ⟨j, s, t⟩ hmem
    obtain ⟨k, _, _, _, hst⟩ := (mem_mkPairsAux snap 1 j s t).mp hmem
    exact hst
  · intro i s t heq hmem
    obtain ⟨k, hk, h1, h2, hst⟩ := (mem_mkPairsAux snap 1 (i + 1) s t).mp hmem
    have hki : k = i := by omega
    subst hki
    rw [heq, h2] at h1
    apply hst
    have := Option.some.inj h1
    exact (Option.some.inj this).symm

/-- C4 (witness): `degenerate_pair_skipped` applied to the concrete snap
outcome `[some 1, some 1, some 2]`: no pair is formed for the degenerate
first position. -/
theorem degenerate_pair_skipped_witness :
    (1, (1 : Int), (1 : Int)) ∉ mkPairs [Option.some 1, Option.some 1, Option.some 2] :=
  (degenerate_pair_skipped [Option.some 1, Option.some 1, Option.some 2]).2 0 1 1 rfl

/-- C5 (counterexample): a two-stop route over a single highway-class edge
(`eHwy`, stored `cost_time` 1).  The search traverses it at the discounted
cost `forwardCost eHwy = 3/5`, and the solve's accumulated cost is `3/5`;
but `full_route` reports `total_time_min = 1`, the raw stored `cost_time`
— not the accumulated, discounted cost used by the search. -/
theorem total_time_not_agg_cost_cex :
    forwardCost eHwy = 3/5 ∧
    (mkPairs [Option.some 1, Option.some 2]).map
      (fun p => (solverHwy p.2.1 p.2.2).agg_cost) = [3/5] ∧
    total_time_min (route_parts waysHwy solverHwy
      (mkPairs [Option.some 1, Option.some 2])) = Option.some 1 ∧
    (1 : Rat) ≠ 3/5 := by
  refine ⟨?_, ?_, ?_, by norm_num⟩
  · unfold forwardCost
    rw [if_neg (by decide), if_pos (by norm_num [eHwy, isHighwayTag])]
    norm_num [eHwy]
  · have hpairs : mkPairs [Option.some 1, Option.some 2] = [(1, 1, 2)] := by decide
    rw [hpairs]
    simp [solverHwy]
  · have hpairs : mkPairs [Option.some 1, Option.some 2] = [(1, 1, 2)] := by decide
    rw [hpairs]
    have hrp : route_parts waysHwy solverHwy [(1, 1, 2)] = [(1, Option.some eHwy)] := by
      simp [route_parts, solverHwy, waysHwy, lookupWay, eHwy]
    rw [hrp]
    simp [total_time_min, eHwy]

/-- C5 (amended): `total_time_min` of a found route equals the sum, over
all consecutive stop pairs, of the sum of the RAW stored `cost_time` of
every way on that pair's path — not the accumulated cost returned by the
shortest-path solve: the `full_route` CTE sums the `ways.cost_time` column
of the joined rows, so the direction-aware discounts and penalties used by
the search are not reflected in the reported total. -/
theorem total_time_sums_raw_cost_times (ways : List Edge)
    (solver : Int → Int → SolveResult) (prs : List (Nat × Int × Int))
    (h : routeFound (route_parts ways solver prs) = true) :
    total_time_min (route_parts ways solver prs) =
      Option.some ((prs.map (segRawTime ways solver)).sum) := by
  obtain ⟨r, hr, hsome⟩ := List.any_eq_true.mp h
  obtain ⟨e, he⟩ := Option.isSome_iff_exists.mp hsome
  have hmem : e.cost_time ∈
      (route_parts ways solver prs).filterMap (fun r => r.2.map Edge.cost_time) :=
    List.mem_filterMap.mpr ⟨r, hr, by rw [he]; rfl⟩
  have hne : (route_parts ways solver prs).filterMap
      (fun r => r.2.map Edge.cost_time) ≠ [] :=
    List.ne_nil_of_mem hmem
  unfold total_time_min
  rw [if_neg hne, route_parts_costs, sum_flatMap_rat]
  rfl

/-- C5 (witness): `total_time_sums_raw_cost_times` applied to the concrete
one-pair route over `waysHwy` / `solverHwy`. -/
theorem total_time_sums_raw_cost_times_witness :
    total_time_min (route_parts waysHwy solverHwy
      (mkPairs [Option.some 1, Option.some 2])) =
      Option.some (((mkPairs [Option.some 1, Option.some 2]).map
        (segRawTime waysHwy solverHwy)).sum) := by
  apply total_time_sums_raw_cost_times
  decide

/-- C6: for a snapped stop sequence of between 2 and 100 stops (one snap
entry per successful stop) in which every consecutive pair resolves —
all vertex ids present, consecutive vertex ids distinct, and the solver
returns a non-empty edge path for every produced pair — the reported
`segment_count` (`COUNT(DISTINCT from_id)`) equals the number of
successful stops minus 1. -/
theorem segment_count_complete (snap : List (Option Int)) (ways : List Edge)
    (solver : Int → Int → SolveResult)
    (hlen2 : 2 ≤ snap.length) (hlen100 : snap.length ≤ 100)
    (hsome : ∀ x ∈ snap, x.isSome) (hne : snap.Chain' (· ≠ ·))
    (hsolve : ∀ p ∈ mkPairs snap,
      ((solver p.2.1 p.2.2).edges.filter (fun g => 0 < g)) ≠ []) :
    segment_count (route_parts ways solver (mkPairs snap)) = snap.length - 1 := by
  unfold segment_count
  rw [route_parts_fst_toFinset ways solver (mkPairs snap) hsolve]
  unfold mkPairs
  rw [mkPairsAux_map_fst snap 1 hsome hne]
  rw [List.toFinset_card_of_nodup (List.nodup_range' _ _)]
  exact List.length_range' _ _ _

/-- C6 (witness): `segment_count_complete` applied to the concrete
two-stop route over `waysHwy` / `solverHwy`: one segment for two stops. -/
theorem segment_count_complete_witness :
    segment_count (route_parts waysHwy solverHwy
      (mkPairs [Option.some 1, Option.some 2])) =
      [Option.some (1 : Int), Option.some 2].length - 1 := by
  apply segment_count_complete
  · decide
  · decide
  · decide
  · simp [List.chain'_cons]
  · decide

/-- C7 (counterexample): a request of 101 stops all of whose geocodes
FAILED has 0 successful stops (below 2), yet `route_from_batch_geocoding`
rejects it with the "Maximum 100 stops allowed" error — the raw-count
bound, not the validation error corresponding to the insufficient
successful-stop count. -/
theorem wrong_validation_error_cex :
    (successfulStops (List.replicate 101 sFailedStop)).length = 0 ∧
    route_from_batch_geocoding (List.replicate 101 sFailedStop)
      emptySnap noWays noSolver =
      BatchResult.http400 "Maximum 100 stops allowed" := by
  have hf : successfulStops (List.replicate 101 sFailedStop) = [] := by
    simp [successfulStops, List.filter_replicate, sFailedStop]
  refine ⟨by rw [hf]; rfl, ?_⟩
  unfold route_from_batch_geocoding
  rw [if_neg (by simp), if_pos (by simp)]

/-- C7 (amended): a request whose successful-stop count is below 2 or
above 100 always fails with a validation error before any snapping or
solving (the result does not depend on the snapping, ways or solver
parameters): `create_multi_stop_route` itself returns the validation
error corresponding to the successful-stop count; at the HTTP layer the
raw-count bounds are checked first, so a raw list shorter than 2 or longer
than 100 is rejected on its raw length (hence a request with more than 100
raw entries but fewer than 2 successful ones gets the too-many-stops
message), and otherwise the successful-count error is surfaced. -/
theorem stop_count_validation (gr : List Stop)
    (snapf : List Stop → List (Option Int)) (ways : List Edge)
    (solver : Int → Int → SolveResult) :
    ((successfulStops gr).length < 2 ∨ 100 < (successfulStops gr).length →
      create_multi_stop_route gr snapf ways solver =
        RouteResult.validationError
          (if (successfulStops gr).length < 2 then
            "At least 2 successful geocodes required for routing"
          else "Maximum 100 stops allowed")
          (successfulStops gr).length) ∧
    (gr.length < 2 →
      route_from_batch_geocoding gr snapf ways solver =
        BatchResult.http400 "At least 2 stops required for routing") ∧
    (100 < gr.length →
      route_from_batch_geocoding gr snapf ways solver =
        BatchResult.http400 "Maximum 100 stops allowed") ∧
    ((successfulStops gr).length < 2 → 2 ≤ gr.length → gr.length ≤ 100 →
      route_from_batch_geocoding gr snapf ways solver =
        BatchResult.http400 "At least 2 successful geocodes required for routing") := by
  have hlen : (sortStops (successfulStops gr)).length = (successfulStops gr).length :=
    sortStops_length _
  refine ⟨?_, ?_, ?_, ?_⟩
  · intro h
    unfold create_multi_stop_route
    rcases h with h | h
    · rw [if_pos (by omega), if_pos (by omega), hlen]
    · rw [if_neg (by omega), if_pos (by omega), if_neg (by omega), hlen]
  · intro h
    unfold route_from_batch_geocoding
    rw [if_pos h]
  · intro h
    unfold route_from_batch_geocoding
    rw [if_neg (by omega), if_pos h]
  · intro h h2 h3
    unfold route_from_batch_geocoding
    rw [if_neg (by omega), if_neg (by omega)]
    unfold create_multi_stop_route
    rw [if_pos (by omega)]

/-- C7 (witness): `stop_count_validation` applied to the empty request. -/
theorem stop_count_validation_witness :
    create_multi_stop_route [] emptySnap noWays noSolver =
      RouteResult.validationError
        "At least 2 successful geocodes required for routing" 0 ∧
    route_from_batch_geocoding [] emptySnap noWays noSolver =
      BatchResult.http400 "At least 2 stops required for routing" := by
  have h := stop_count_validation [] emptySnap noWays noSolver
  constructor
  · have h1 := h.1 (Or.inl (by simp [successfulStops]))
    simpa [successfulStops] using h1
  · exact h.2.1 (by simp)

/-- C8 (counterexample): two DISTINCT stops tied on `stop_number` 1.  The
stable sort keeps input order on ties, so feeding them in the two possible
orders yields two different sorted (hence snapped) orders, refuting the
claim that the ordering is permutation-invariant for every stop list. -/
theorem sort_tie_not_perm_invariant_cex :
    [sTieA, sTieB].Perm [sTieB, sTieA] ∧
    sortStops (successfulStops [sTieA, sTieB]) ≠
      sortStops (successfulStops [sTieB, sTieA]) := by
  have hf1 : successfulStops [sTieA, sTieB] = [sTieA, sTieB] := by
    simp [successfulStops, sTieA, sTieB]
  have hf2 : successfulStops [sTieB, sTieA] = [sTieB, sTieA] := by
    simp [successfulStops, sTieA, sTieB]
  have h1 : sortStops [sTieA, sTieB] = [sTieA, sTieB] := by
    simp [sortStops, List.mergeSort, List.merge, stopLE, sortKey, sTieA, sTieB]
  have h2 : sortStops [sTieB, sTieA] = [sTieB, sTieA] := by
    simp [sortStops, List.mergeSort, List.merge, stopLE, sortKey, sTieA, sTieB]
  refine ⟨List.Perm.swap _ _ _, ?_⟩
  rw [hf1, hf2, h1, h2]
  intro h
  have := List.head_eq_of_cons_eq h
  simp [sTieA, sTieB] at this

/-- C8 (amended): the validation step stable-sorts the successful stops by
`stop_number` ascending (the output is sorted, and any two stops in
key-order in the input keep their relative order, i.e. ties are broken by
input order); the resulting order is permutation-invariant PROVIDED the
successful stops' (defaulted) `stop_number` keys are pairwise distinct —
with tied keys the stable sort makes the order depend on the input order
(see the counterexample). -/
theorem sort_perm_invariant (l₁ l₂ : List Stop) (hperm : l₁.Perm l₂)
    (hkeys : (successfulStops l₁).Pairwise (fun a b => sortKey a ≠ sortKey b)) :
    sortStops (successfulStops l₁) = sortStops (successfulStops l₂) ∧
    (sortStops (successfulStops l₁)).Sorted (fun a b => sortKey a ≤ sortKey b) ∧
    ∀ a b : Stop, stopLE a b = true → [a, b].Sublist (successfulStops l₁) →
      [a, b].Sublist (sortStops (successfulStops l₁)) := by
  have hpf : (successfulStops l₁).Perm (successfulStops l₂) :=
    hperm.filter _
  have hp1 : (sortStops (successfulStops l₁)).Perm (successfulStops l₁) :=
    sortStops_perm _
  have hp2 : (sortStops (successfulStops l₂)).Perm (successfulStops l₂) :=
    sortStops_perm _
  have hk1 : (sortStops (successfulStops l₁)).Pairwise (fun a b => sortKey a ≠ sortKey b) :=
    (hp1.pairwise_iff (fun h => h.symm)).mpr hkeys
  have hk2 : (sortStops (successfulStops l₂)).Pairwise (fun a b => sortKey a ≠ sortKey b) :=
    (hp2.pairwise_iff (fun h => h.symm)).mpr ((hpf.pairwise_iff (fun h => h.symm)).mp hkeys)
  have hs1 := sortStops_sorted (successfulStops l₁)
  have hs2 := sortStops_sorted (successfulStops l₂)
  haveI : IsAntisymm Stop (fun a b => sortKey a < sortKey b) :=
    ⟨fun a b h1 h2 => absurd (lt_trans h1 h2) (lt_irrefl _)⟩
  have hstrict1 : (sortStops (successfulStops l₁)).Sorted (fun a b => sortKey a < sortKey b) :=
    (hs1.and hk1).imp (fun h => lt_of_le_of_ne h.1 h.2)
  have hstrict2 : (sortStops (successfulStops l₂)).Sorted (fun a b => sortKey a < sortKey b) :=
    (hs2.and hk2).imp (fun h => lt_of_le_of_ne h.1 h.2)
  refine ⟨List.eq_of_perm_of_sorted (hp1.trans (hpf.trans hp2.symm)) hstrict1 hstrict2,
    hs1, ?_⟩
  intro a b hab hsub
  exact List.mergeSort_stable_pair stopLE_trans stopLE_total hab hsub

/-- C8 (witness): `sort_perm_invariant` applied to the concrete shuffled
pair `[sPos, sNoNum]` / `[sNoNum, sPos]` with distinct keys 5 and 0. -/
theorem sort_perm_invariant_witness :
    sortStops (successfulStops [sPos, sNoNum]) =
      sortStops (successfulStops [sNoNum, sPos]) ∧
    (sortStops (successfulStops [sPos, sNoNum])).Sorted (fun a b => sortKey a ≤ sortKey b) ∧
    ∀ a b : Stop, stopLE a b = true → [a, b].Sublist (successfulStops [sPos, sNoNum]) →
      [a, b].Sublist (sortStops (successfulStops [sPos, sNoNum])) := by
  refine sort_perm_invariant [sPos, sNoNum] [sNoNum, sPos] (List.Perm.swap _ _ _) ?_
  have hf : successfulStops [sPos, sNoNum] = [sPos, sNoNum] := by
    simp [successfulStops, sPos, sNoNum]
  rw [hf]
  simp [List.pairwise_cons, sortKey, sPos, sNoNum]

/-- C9: the `snap` CTE's COALESCE makes snapping total on non-empty vertex
tables: the snapped `vertex_id` is `NULL` exactly when the direction-aware
candidate subquery found nothing AND the vertex table is empty; in
particular snapping can only fail when the graph has zero vertices, for
every outcome of the candidate search (including all nearby roads being
filtered out by the one-way eligibility conditions). -/
theorem snap_fails_only_on_empty_graph (directionAware : Option Int)
    (verticesByDistance : List Int) :
    snapVertexId directionAware verticesByDistance = Option.none ↔
      directionAware = Option.none ∧ verticesByDistance = [] := by
  cases directionAware <;> cases verticesByDistance <;>
    simp [snapVertexId, nearestVertexFallback]

/-- C10: a stop whose record lacks a `stop_number` key sorts with key 0 —
so in the validated order it comes strictly before every stop with a
positive `stop_number` — and its entry in the response's stop summary
reports `stop_number` 0. -/
theorem missing_stop_number_defaults_to_zero (s : Stop)
    (hs : s.stop_number = Option.none) :
    sortKey s = 0 ∧ (stopSummary s).stop_number = 0 ∧
    ∀ (l : List Stop) (i j : Nat) (t : Stop),
      (sortStops l)[i]? = Option.some s → (sortStops l)[j]? = Option.some t →
      0 < sortKey t → i < j := by
  refine ⟨by simp [sortKey, hs], by simp [stopSummary, hs], ?_⟩
  intro l i j t hi hj ht
  rw [List.getElem?_eq_some] at hi hj
  obtain ⟨hi', hgi⟩ := hi
  obtain ⟨hj', hgj⟩ := hj
  by_contra hij
  push_neg at hij
  have hsorted := sortStops_sorted l
  have h0 : sortKey s = 0 := by simp [sortKey, hs]
  rcases lt_or_eq_of_le hij with hlt | heq
  · have hrel := hsorted.rel_get_of_lt (a := ⟨j, hj'⟩) (b := ⟨i, hi'⟩) hlt
    simp only [List.get_eq_getElem, hgi, hgj] at hrel
    rw [h0] at hrel
    omega
  · subst heq
    rw [hgi] at hgj
    subst hgj
    rw [h0] at ht
    omega

/-- C10 (witness): `missing_stop_number_defaults_to_zero` applied to the
concrete stop `sNoNum`, placed before `sPos` (stop_number 5) in the sorted
order of `[sPos, sNoNum]`. -/
theorem missing_stop_number_defaults_to_zero_witness :
    sortKey sNoNum = 0 ∧ (stopSummary sNoNum).stop_number = 0 ∧ (0 : Nat) < 1 := by
  have h := missing_stop_number_defaults_to_zero sNoNum rfl
  have heq : sortStops [sPos, sNoNum] = [sNoNum, sPos] := by
    simp [sortStops, List.mergeSort, List.merge, stopLE, sortKey, sPos, sNoNum]
  refine ⟨h.1, h.2.1, ?_⟩
  exact h.2.2 [sPos, sNoNum] 0 1 sPos (by rw [heq]; rfl) (by rw [heq]; rfl)
    (by simp [sortKey, sPos])
